import Mathlib

/-!
Verification of the Kangaroo-256 collision-search coordination engine.

The repository ships the compile-time constants in src/Constants.h; the
behavioural components described by the specification (DPBuffer, MergeClient,
CollisionTable, MergeServer, Solver, JumpSet) are modelled here from the
specification text, parameterised by those constants.
-/

/-! ## Constants (from src/Constants.h) -/

/-- Number of random jumps (NB_JUMP in src/Constants.h). -/
def NB_JUMP : Nat := 32

/-- Tame kangaroo kind encoding (TAME in src/Constants.h). -/
def TAME : Nat := 0

/-- Wild kangaroo kind encoding (WILD in src/Constants.h). -/
def WILD : Nat := 1

/-- SendDP period in seconds (SEND_PERIOD in src/Constants.h is 2.0 s;
modelled as a whole number of seconds). -/
def SEND_PERIOD : Nat := 2

/-- Maximum DPs buffered per GPU before dropping (MAX_DP_BUFFER in
src/Constants.h). -/
def MAX_DP_BUFFER : Nat := 262144

/-- Timeout in seconds before closing an idle client connection
(CLIENT_TIMEOUT in src/Constants.h is 3600.0 s; modelled as a whole
number of seconds). -/
def CLIENT_TIMEOUT : Nat := 3600

/-- Number of merge partitions, that is the shard count of the collision
table (MERGE_PART in src/Constants.h). -/
def MERGE_PART : Nat := 256

/-! ## Data model -/

/-- Modelled from the spec: a DPRecord is the unit of transmission and of
table insertion, carrying the Point (by its canonical encoding, modelled
as a natural number), the accumulated Distance, the kangaroo kind
(TAME or WILD), the origin client id and the herd id. The DPRecord type
itself is absent from src/. -/
structure DPRecord where
  point : Nat
  distance : Nat
  kind : Nat
  clientId : Nat
  herdId : Nat
deriving DecidableEq

/-! ## DPBuffer (spec section 4.1) -/

/-- Modelled from the spec: the bounded per-producer queue of detected DPs
awaiting transmission, together with its overflow counter. The DPBuffer
implementation is absent from src/; only its capacity MAX_DP_BUFFER is in
src/Constants.h. -/
structure DPBuffer where
  items : List DPRecord
  overflowCount : Nat
deriving DecidableEq

/-- Modelled from the spec: the empty DPBuffer. -/
def DPBuffer.empty : DPBuffer := ⟨[], 0⟩

/-- Modelled from the spec: push rejects (and counts) the newest record when
the capacity ceiling MAX_DP_BUFFER is reached, otherwise appends it. -/
def DPBuffer.push (b : DPBuffer) (r : DPRecord) : DPBuffer :=
  if b.items.length < MAX_DP_BUFFER then ⟨b.items ++ [r], b.overflowCount⟩
  else ⟨b.items, b.overflowCount + 1⟩

/-- Modelled from the spec: push a whole sequence of records in order. -/
def DPBuffer.pushAll (b : DPBuffer) (rs : List DPRecord) : DPBuffer :=
  rs.foldl DPBuffer.push b

/-- Modelled from the spec: drain returns the full contents in insertion
order and leaves the buffer empty, ready for further pushes. -/
def DPBuffer.drain (b : DPBuffer) : List DPRecord × DPBuffer :=
  (b.items, ⟨[], b.overflowCount⟩)

/-! ## Point hashing and sharding (spec sections 3, 4.3) -/

/-- Modelled from the spec: a deterministic hash over a Point's canonical
encoding (a multiplicative mixer); the hash implementation is absent from
src/. -/
def pointHash (p : Nat) : Nat := (p * 2654435761 + 2166136261) % (2 ^ 32)

/-- Modelled from the spec: the shard index of a Point is chosen by the hash
of its canonical encoding, reduced modulo the fixed shard count MERGE_PART. -/
def shardIndex (p : Nat) : Nat := pointHash p % MERGE_PART

/-- Modelled from the spec: the shard index packaged with its bound. -/
def shardFin (p : Nat) : Fin MERGE_PART :=
  ⟨shardIndex p, Nat.mod_lt _ (by decide)⟩

/-! ## CollisionTable (spec section 4.3) -/

/-- Modelled from the spec: the CollisionTable is partitioned into MERGE_PART
shards, each mapping a Point to the first-seen DPRecord; the CollisionTable
implementation is absent from src/ (only MERGE_PART is in src/Constants.h).
A shard is a list of committed records, looked up by Point key. -/
abbrev CollisionTable := Fin MERGE_PART → List DPRecord

/-- Modelled from the spec: the empty CollisionTable. -/
def CollisionTable.empty : CollisionTable := fun _ => []

/-- Modelled from the spec: look up a Point key inside one shard. -/
def findInShard (shard : List DPRecord) (p : Nat) : Option DPRecord :=
  shard.find? (fun r => r.point == p)

/-- Modelled from the spec: the outcome of a single insertion — inserted when
the Point was absent, redundant when present with the same kind, collision
(emitting the pair existing, incoming) when present with a different kind. -/
inductive InsertOutcome where
  | inserted
  | redundant (existing : DPRecord)
  | collision (existing incoming : DPRecord)
deriving DecidableEq

/-- Modelled from the spec: the insertion algorithm — compute the shard from
the Point hash; within the shard, look up by Point key; insert when absent,
discard when present with the same kind, report a collision when present
with a different kind. -/
def CollisionTable.insert (t : CollisionTable) (r : DPRecord) :
    CollisionTable × InsertOutcome :=
  let i := shardFin r.point
  match findInShard (t i) r.point with
  | none => (fun j => if j = i then t i ++ [r] else t j, InsertOutcome.inserted)
  | some e =>
      if e.kind = r.kind then (t, InsertOutcome.redundant e)
      else (t, InsertOutcome.collision e r)

/-- Modelled from the spec: merge a batch record by record, collecting emitted
collision pairs; once a collision is found the table is marked solved and
further merge work is suppressed. -/
def mergeList (t : CollisionTable) (rs : List DPRecord) :
    CollisionTable × List (DPRecord × DPRecord) :=
  match rs with
  | [] => (t, [])
  | r :: rest =>
      match CollisionTable.insert t r with
      | (t2, InsertOutcome.collision e inc) => (t2, [(e, inc)])
      | (t2, _) => mergeList t2 rest

/-- Modelled from the spec: all committed entries for a given Point, gathered
across every shard of the table. -/
def CollisionTable.entriesFor (t : CollisionTable) (p : Nat) : List DPRecord :=
  (List.finRange MERGE_PART).flatMap (fun i => (t i).filter (fun r => r.point == p))

/-- Modelled from the spec: well-formedness of the sharded table — every
committed record sits in the shard chosen by the hash of its Point. -/
def CollisionTable.WF (t : CollisionTable) : Prop :=
  ∀ (i : Fin MERGE_PART), ∀ r ∈ t i, shardFin r.point = i

/-- Modelled from the spec: the table invariant — at most one entry per
distinct Point. -/
def CollisionTable.AtMostOnePerPoint (t : CollisionTable) : Prop :=
  ∀ p : Nat, (t.entriesFor p).length ≤ 1

/-! ## Solver (spec section 4.4) -/

/-- Modelled from the spec: the Solver result — the recovered scalar, a
configuration error (NoSolution), or a rejected false positive
(VerificationFailed). The Solver implementation is absent from src/. -/
inductive SolveResult where
  | solved (k : Nat)
  | noSolution
  | verificationFailed
deriving DecidableEq

/-- Modelled from the spec: the recovered scalar
k = (offset_tame + d_t − d_w) mod order, computed with integer
subtraction and the euclidean remainder. -/
def recoverK (order offsetTame dt dw : Nat) : Nat :=
  ((((offsetTame : Int) + dt) - dw) % (order : Int)).toNat

/-- Modelled from the spec: the Solver on a synthetic cyclic group of the
given order, whose points are residues and where the scalar multiple
k·G is (k * g) % order. An order of zero stands for a configuration error
(order not matching the curve's subgroup) and yields NoSolution; a recovered
k that fails the k·G = P verification yields VerificationFailed. -/
def solve (order g p offsetTame dt dw : Nat) : SolveResult :=
  if order = 0 then SolveResult.noSolution
  else if (recoverK order offsetTame dt dw * g) % order = p % order then
    SolveResult.solved (recoverK order offsetTame dt dw)
  else SolveResult.verificationFailed

/-! ## MergeServer (spec section 4.5) -/

/-- Modelled from the spec: the global server states. -/
inductive ServerStatus where
  | searching
  | solved
  | draining
deriving DecidableEq

/-- Modelled from the spec: a client session with its connection identifier
and its idle time in seconds (seconds since last activity). -/
structure ClientSession where
  connId : Nat
  idleTime : Nat
deriving DecidableEq

/-- Modelled from the spec: the MergeServer state — live client sessions, the
collision table, and the global status. The MergeServer implementation is
absent from src/; only CLIENT_TIMEOUT is in src/Constants.h. -/
structure ServerState where
  sessions : List ClientSession
  table : CollisionTable
  status : ServerStatus

/-- Modelled from the spec: forcibly close every session idle for more than
CLIENT_TIMEOUT; committed table entries are untouched. -/
def reapIdleSessions (st : ServerState) : ServerState :=
  { st with sessions := st.sessions.filter (fun c => decide (c.idleTime ≤ CLIENT_TIMEOUT)) }

/-- Modelled from the spec: batch ingestion — while searching, merge the
batch into the table (moving to solved when a collision is found); once
solved or draining, the batch is accepted but not merged. -/
def serverReceiveBatch (st : ServerState) (batch : List DPRecord) : ServerState :=
  match st.status with
  | ServerStatus.searching =>
      match mergeList st.table batch with
      | (t2, []) => { st with table := t2 }
      | (t2, _ :: _) => { st with table := t2, status := ServerStatus.solved }
  | _ => st

/-- Modelled from the spec: acting on a Solver result — a solved scalar moves
the server to the solved state; a false positive (VerificationFailed) or a
configuration error leaves the state unchanged so the search resumes. -/
def applySolve (st : ServerState) (res : SolveResult) : ServerState :=
  match res with
  | SolveResult.solved _ => { st with status := ServerStatus.solved }
  | _ => st

/-! ## MergeClient (spec section 4.2) -/

/-- Modelled from the spec: the events a MergeClient reacts to — the walk
engine producing a DP, the periodic flush timer, and the server's stop
broadcast. The MergeClient implementation is absent from src/. -/
inductive ClientEvent where
  | walkDP (r : DPRecord)
  | flushTimer
  | stopBroadcast
deriving DecidableEq

/-- Modelled from the spec: the MergeClient state — whether the stop
broadcast has been received (terminating the walk loop) and the owned
DPBuffer. -/
structure MergeClientState where
  stopped : Bool
  buffer : DPBuffer
deriving DecidableEq

/-- Modelled from the spec: one step of the client loop, returning the new
state and the batch submitted to the server, if any; once stopped, the
client submits nothing and its walk loop is terminated. -/
def clientHandle (c : MergeClientState) (e : ClientEvent) :
    MergeClientState × Option (List DPRecord) :=
  if c.stopped then (c, none)
  else
    match e with
    | ClientEvent.walkDP r => (⟨false, c.buffer.push r⟩, none)
    | ClientEvent.flushTimer => (⟨false, (c.buffer.drain).2⟩, some (c.buffer.drain).1)
    | ClientEvent.stopBroadcast => (⟨true, c.buffer⟩, none)

/-- Modelled from the spec: run the client loop over a sequence of events,
collecting every batch it submits. -/
def clientRun (c : MergeClientState) (es : List ClientEvent) :
    MergeClientState × List (List DPRecord) :=
  match es with
  | [] => (c, [])
  | e :: rest =>
      match clientHandle c e with
      | (c2, none) => clientRun c2 rest
      | (c2, some b) => ((clientRun c2 rest).1, b :: (clientRun c2 rest).2)

/-! ## Periodic flush timer (spec sections 4.1, 4.2) -/

/-- Modelled from the spec: the flush loop state — the owned buffer and the
seconds elapsed since the last drain-and-send. -/
structure FlushState where
  buffer : DPBuffer
  sinceFlush : Nat

/-- Modelled from the spec: one second of the flush loop with no further
pushes — when the period SEND_PERIOD has elapsed, unconditionally drain and
send the buffer contents, even if the buffer is far from full. -/
def flushTick (s : FlushState) : FlushState × List DPRecord :=
  if SEND_PERIOD ≤ s.sinceFlush + 1 then
    (⟨(s.buffer.drain).2, 0⟩, (s.buffer.drain).1)
  else (⟨s.buffer, s.sinceFlush + 1⟩, [])

/-- Modelled from the spec: run the flush loop for a number of seconds,
collecting what each second sends. -/
def flushRun (s : FlushState) : Nat → FlushState × List (List DPRecord)
  | 0 => (s, [])
  | n + 1 =>
      ((flushRun (flushTick s).1 n).1, (flushTick s).2 :: (flushRun (flushTick s).1 n).2)

/-! ## JumpSet (spec section 2) -/

/-- Modelled from the spec: a fixed-size table of NB_JUMP precomputed
pseudorandom jump vectors; the jump-table construction is absent from src/
(only NB_JUMP is in src/Constants.h). -/
structure JumpSet where
  jumps : List Nat
  size_eq : jumps.length = NB_JUMP

/-- Modelled from the spec: the jump selected for a kangaroo is indexed by
the hash of its current point, reduced modulo the table size. -/
def selectJump (js : JumpSet) (p : Nat) : Nat :=
  js.jumps.getD (pointHash p % NB_JUMP) 0

/-! ## Concrete sample data used by the witnesses -/

/-- A tame DPRecord on the Point with canonical encoding 5. -/
def rTame : DPRecord := ⟨5, 10, TAME, 0, 0⟩

/-- A wild DPRecord on the same Point as rTame. -/
def rWild : DPRecord := ⟨5, 7, WILD, 1, 0⟩

/-- A second tame DPRecord on the same Point as rTame. -/
def rTame2 : DPRecord := ⟨5, 12, TAME, 2, 1⟩

/-- A table already holding the tame record rTame. -/
def tableWithTame : CollisionTable := (CollisionTable.empty.insert rTame).1

/-- A server still searching, with one long-idle session. -/
def sampleServer : ServerState :=
  ⟨[⟨1, 4000⟩], CollisionTable.empty, ServerStatus.searching⟩

/-- A server already in the solved state. -/
def solvedServer : ServerState :=
  ⟨[], CollisionTable.empty, ServerStatus.solved⟩

/-- A running client with an empty buffer. -/
def sampleClient : MergeClientState := ⟨false, DPBuffer.empty⟩

/-- A jump table whose entries are all 3. -/
def sampleJumpSet : JumpSet := ⟨List.replicate NB_JUMP 3, by simp⟩

/-- A flush loop state holding one record, right after its last push. -/
def sampleFlush : FlushState := ⟨⟨[rTame], 0⟩, 0⟩

/-! ## Helper lemmas -/

lemma DPBuffer.pushAll_within_capacity :
    ∀ (rs : List DPRecord) (b : DPBuffer),
      b.items.length + rs.length ≤ MAX_DP_BUFFER →
      (b.pushAll rs).items = b.items ++ rs ∧
      (b.pushAll rs).overflowCount = b.overflowCount := by
  intro rs
  induction rs with
  | nil => intro b _; simp [DPBuffer.pushAll]
  | cons r rest ih =>
    intro b h
    have hlt : b.items.length < MAX_DP_BUFFER := by
      simp [List.length_cons] at h; omega
    have hstep : b.push r = ⟨b.items ++ [r], b.overflowCount⟩ := by
      simp [DPBuffer.push, hlt]
    have hrec := ih ⟨b.items ++ [r], b.overflowCount⟩ (by
      simp [List.length_append] at h ⊢; omega)
    constructor
    · calc (b.pushAll (r :: rest)).items
          = (DPBuffer.pushAll ⟨b.items ++ [r], b.overflowCount⟩ rest).items := by
            simp [DPBuffer.pushAll, hstep]
        _ = (b.items ++ [r]) ++ rest := hrec.1
        _ = b.items ++ (r :: rest) := by simp
    · calc (b.pushAll (r :: rest)).overflowCount
          = (DPBuffer.pushAll ⟨b.items ++ [r], b.overflowCount⟩ rest).overflowCount := by
            simp [DPBuffer.pushAll, hstep]
        _ = b.overflowCount := hrec.2

lemma DPBuffer.pushAll_one_past_capacity :
    ∀ (rs : List DPRecord) (b : DPBuffer),
      b.items.length ≤ MAX_DP_BUFFER →
      b.items.length + rs.length = MAX_DP_BUFFER + 1 →
      (b.pushAll rs).items = b.items ++ rs.take (MAX_DP_BUFFER - b.items.length) ∧
      (b.pushAll rs).overflowCount = b.overflowCount + 1 := by
  intro rs
  induction rs with
  | nil => intro b hle h; simp at h; omega
  | cons r rest ih =>
    intro b hle h
    rcases Nat.lt_or_ge b.items.length MAX_DP_BUFFER with hlt | hge
    · have hstep : b.push r = ⟨b.items ++ [r], b.overflowCount⟩ := by
        simp [DPBuffer.push, hlt]
      have hrec := ih ⟨b.items ++ [r], b.overflowCount⟩
        (by simp [List.length_append]; omega)
        (by simp [List.length_append, List.length_cons] at h ⊢; omega)
      have htake : (r :: rest).take (MAX_DP_BUFFER - b.items.length)
          = r :: rest.take (MAX_DP_BUFFER - (b.items.length + 1)) := by
        have h1 : MAX_DP_BUFFER - b.items.length
            = (MAX_DP_BUFFER - (b.items.length + 1)) + 1 := by omega
        rw [h1, List.take_succ_cons]
      constructor
      · calc (b.pushAll (r :: rest)).items
            = (DPBuffer.pushAll ⟨b.items ++ [r], b.overflowCount⟩ rest).items := by
              simp [DPBuffer.pushAll, hstep]
          _ = (b.items ++ [r]) ++ rest.take (MAX_DP_BUFFER - (b.items.length + 1)) := by
              have := hrec.1; simpa [List.length_append] using this
          _ = b.items ++ (r :: rest).take (MAX_DP_BUFFER - b.items.length) := by
              rw [htake]; simp
      · calc (b.pushAll (r :: rest)).overflowCount
            = (DPBuffer.pushAll ⟨b.items ++ [r], b.overflowCount⟩ rest).overflowCount := by
              simp [DPBuffer.pushAll, hstep]
          _ = b.overflowCount + 1 := hrec.2
    · have heq : b.items.length = MAX_DP_BUFFER := by omega
      have hstep : b.push r = ⟨b.items, b.overflowCount + 1⟩ := by
        simp [DPBuffer.push, heq]
      have hrest : rest = [] := by
        have : rest.length = 0 := by simp [List.length_cons] at h; omega
        exact List.eq_nil_of_length_eq_zero this
      subst hrest
      constructor
      · simp [DPBuffer.pushAll, hstep, heq]
      · simp [DPBuffer.pushAll, hstep]

lemma flatMap_eq_nil_of_forall {α β : Type} (l : List α) (f : α → List β)
    (h : ∀ i ∈ l, f i = []) : l.flatMap f = [] := by
  induction l with
  | nil => rfl
  | cons a rest ih =>
    simp [List.flatMap_cons, h a (by simp),
      ih (fun i hi => h i (by simp [hi]))]

lemma flatMap_eq_single {α β : Type} [DecidableEq α] :
    ∀ (l : List α) (f : α → List β) (j : α), l.Nodup → j ∈ l →
      (∀ i, i ≠ j → f i = []) → l.flatMap f = f j := by
  intro l
  induction l with
  | nil => intro f j _ hj _; simp at hj
  | cons a rest ih =>
    intro f j hnd hj h
    rcases eq_or_ne a j with rfl | hne
    · have hnot : a ∉ rest := (List.nodup_cons.mp hnd).1
      have hrest : rest.flatMap f = [] := by
        refine flatMap_eq_nil_of_forall rest f (fun i hi => h i ?_)
        intro hij; exact hnot (hij ▸ hi)
      simp [List.flatMap_cons, hrest]
    · have hj' : j ∈ rest := by
        rcases List.mem_cons.mp hj with h1 | h1
        · exact absurd h1.symm hne
        · exact h1
      have := ih f j (List.nodup_cons.mp hnd).2 hj' h
      simp [List.flatMap_cons, h a hne, this]

set_option maxRecDepth 4096 in
lemma CollisionTable.entriesFor_eq_of_wf (t : CollisionTable) (p : Nat)
    (hwf : t.WF) :
    t.entriesFor p = (t (shardFin p)).filter (fun r => r.point == p) := by
  rw [CollisionTable.entriesFor]
  refine flatMap_eq_single (List.finRange MERGE_PART)
    (fun i => (t i).filter (fun r => r.point == p)) (shardFin p)
    (List.nodup_finRange MERGE_PART) (List.mem_finRange _) ?_
  intro i hi
  refine List.filter_eq_nil_iff.mpr ?_
  intro r hr hp
  have hpt : r.point = p := by simpa using hp
  have h2 := hwf i r hr
  rw [hpt] at h2
  exact hi h2.symm

lemma CollisionTable.insert_fresh (t : CollisionTable) (r : DPRecord)
    (hnone : findInShard (t (shardFin r.point)) r.point = none) :
    (t.insert r).2 = InsertOutcome.inserted ∧
    (t.insert r).1 (shardFin r.point) = t (shardFin r.point) ++ [r] ∧
    ∀ j : Fin MERGE_PART, j ≠ shardFin r.point → (t.insert r).1 j = t j := by
  refine ⟨?_, ?_, ?_⟩
  · simp [CollisionTable.insert, hnone]
  · simp [CollisionTable.insert, hnone]
  · intro j hj
    simp [CollisionTable.insert, hnone, hj]

lemma CollisionTable.insert_occupied (t : CollisionTable) (r e : DPRecord)
    (hsome : findInShard (t (shardFin r.point)) r.point = some e) :
    (t.insert r).1 = t ∧
    (t.insert r).2 =
      (if e.kind = r.kind then InsertOutcome.redundant e
       else InsertOutcome.collision e r) := by
  constructor
  · by_cases hk : e.kind = r.kind <;> simp [CollisionTable.insert, hsome, hk]
  · by_cases hk : e.kind = r.kind <;> simp [CollisionTable.insert, hsome, hk]

lemma CollisionTable.insert_wf (t : CollisionTable) (r : DPRecord)
    (hwf : t.WF) : ((t.insert r).1).WF := by
  rcases hfind : findInShard (t (shardFin r.point)) r.point with _ | e
  · intro j s hs
    rcases (CollisionTable.insert_fresh t r hfind) with ⟨_, hin, hout⟩
    by_cases hj : j = shardFin r.point
    · subst hj
      rw [hin] at hs
      rcases List.mem_append.mp hs with h1 | h1
      · exact hwf _ s h1
      · have hsr : s = r := by simpa using h1
        subst hsr; rfl
    · rw [hout j hj] at hs
      exact hwf j s hs
  · rw [(CollisionTable.insert_occupied t r e hfind).1]
    exact hwf

lemma CollisionTable.insert_at_most_one (t : CollisionTable) (r : DPRecord)
    (hwf : t.WF) (hone : t.AtMostOnePerPoint) :
    ((t.insert r).1).AtMostOnePerPoint := by
  rcases hfind : findInShard (t (shardFin r.point)) r.point with _ | e
  · intro p
    have hwf2 : ((t.insert r).1).WF := CollisionTable.insert_wf t r hwf
    rw [CollisionTable.entriesFor_eq_of_wf _ p hwf2]
    rcases (CollisionTable.insert_fresh t r hfind) with ⟨_, hin, hout⟩
    by_cases hsh : shardFin p = shardFin r.point
    · rw [hsh, hin, List.filter_append]
      by_cases hp : r.point = p
      · subst hp
        have hnil : (t (shardFin r.point)).filter (fun s => s.point == r.point) = [] := by
          refine List.filter_eq_nil_iff.mpr ?_
          intro s hs hps
          have := List.find?_eq_none.mp hfind s hs
          exact this hps
        simp [hnil]
      · have hnil2 : List.filter (fun s => s.point == p) [r] = [] := by
          simp [hp]
        rw [hnil2, List.append_nil]
        have := hone p
        rw [CollisionTable.entriesFor_eq_of_wf t p hwf, hsh] at this
        exact this
    · rw [hout (shardFin p) hsh]
      have := hone p
      rw [CollisionTable.entriesFor_eq_of_wf t p hwf] at this
      exact this
  · rw [(CollisionTable.insert_occupied t r e hfind).1]
    exact hone

lemma mergeList_cons_eq (t : CollisionTable) (r : DPRecord) (rest : List DPRecord) :
    mergeList t (r :: rest) =
      match CollisionTable.insert t r with
      | (t2, InsertOutcome.collision e inc) => (t2, [(e, inc)])
      | (t2, _) => mergeList t2 rest := by
  rw [mergeList]

lemma mergeList_cons_not_collision (t : CollisionTable) (r : DPRecord)
    (rest : List DPRecord)
    (h : ∀ e inc, (t.insert r).2 ≠ InsertOutcome.collision e inc) :
    mergeList t (r :: rest) = mergeList (t.insert r).1 rest := by
  rw [mergeList_cons_eq]
  rcases h2 : t.insert r with ⟨t2, out⟩
  rw [h2] at h
  cases out with
  | inserted => rfl
  | redundant e => rfl
  | collision e inc => exact absurd rfl (h e inc)

lemma mergeList_cons_collision (t : CollisionTable) (r e inc : DPRecord)
    (rest : List DPRecord)
    (h : (t.insert r).2 = InsertOutcome.collision e inc) :
    mergeList t (r :: rest) = ((t.insert r).1, [(e, inc)]) := by
  rw [mergeList_cons_eq]
  rcases h2 : t.insert r with ⟨t2, out⟩
  rw [h2] at h
  have h3 : out = InsertOutcome.collision e inc := h
  subst h3
  rfl

lemma mergeList_pair_collision (t : CollisionTable) (A B : DPRecord)
    (hpt : B.point = A.point) (hk : ¬ A.kind = B.kind)
    (hnone : findInShard (t (shardFin A.point)) A.point = none) :
    (mergeList t [A, B]).2 = [(A, B)] := by
  have hnoneA : findInShard (t (shardFin A.point)) A.point = none := hnone
  have hfreshA := CollisionTable.insert_fresh t A hnoneA
  have h1 : mergeList t [A, B] = mergeList (t.insert A).1 [B] := by
    refine mergeList_cons_not_collision t A [B] ?_
    intro e inc he
    rw [hfreshA.1] at he
    exact InsertOutcome.noConfusion he
  have hfindB : findInShard ((t.insert A).1 (shardFin B.point)) B.point = some A := by
    rw [hpt, hfreshA.2.1]
    unfold findInShard at hnoneA ⊢
    rw [List.find?_append, hnoneA]
    simp
  have hocc := CollisionTable.insert_occupied (t.insert A).1 B A hfindB
  have hout : (((t.insert A).1).insert B).2 = InsertOutcome.collision A B := by
    rw [hocc.2, if_neg hk]
  rw [h1, mergeList_cons_collision (t.insert A).1 B A B [] hout]

lemma clientRun_of_stopped :
    ∀ (es : List ClientEvent) (c : MergeClientState), c.stopped = true →
      (clientRun c es).2 = [] ∧ ((clientRun c es).1).stopped = true := by
  intro es
  induction es with
  | nil => intro c h; exact ⟨rfl, h⟩
  | cons e rest ih =>
    intro c h
    have hstep : clientHandle c e = (c, none) := by
      simp [clientHandle, h]
    have hrun : clientRun c (e :: rest) = clientRun c rest := by
      rw [clientRun, hstep]
    rw [hrun]
    exact ih c h

lemma recoverK_eq (order offsetTame dt dw k0 : Nat) (hord : 0 < order)
    (hk0 : k0 < order)
    (hdist : (offsetTame + dt) % order = (k0 + dw) % order) :
    recoverK order offsetTame dt dw = k0 := by
  unfold recoverK
  have hcast : ((offsetTame : Int) + dt) % order = ((k0 : Int) + dw) % order := by
    have h := congrArg (fun n : Nat => (n : Int)) hdist
    push_cast at h
    simpa using h
  have hmain : (((offsetTame : Int) + dt) - dw) % order = (k0 : Int) := by
    calc ((offsetTame : Int) + dt - dw) % order
        = (((offsetTame : Int) + dt) % order - (dw : Int) % order) % order := by
          rw [Int.sub_emod]
      _ = (((k0 : Int) + dw) % order - (dw : Int) % order) % order := by rw [hcast]
      _ = (((k0 : Int) + dw) - dw) % order := by rw [← Int.sub_emod]
      _ = (k0 : Int) % order := by rw [add_sub_cancel_right]
      _ = (k0 : Int) := Int.emod_eq_of_lt (Int.natCast_nonneg k0)
          (by exact_mod_cast hk0)
  rw [hmain]
  simp

/-! ## Claim theorems -/

/-- Claim C1: for every pair of DPRecords A and B keyed by the same Point but
with differing kind, inserting them into the CollisionTable in either order
(A then B, or B then A) produces exactly one collision event, which emits the
pair (existing record, incoming record) to the Solver. -/
theorem collisionTable_one_collision_either_order (t : CollisionTable)
    (A B : DPRecord) (hpt : B.point = A.point) (hk : A.kind ≠ B.kind)
    (hnone : findInShard (t (shardFin A.point)) A.point = none) :
    (mergeList t [A, B]).2 = [(A, B)] ∧ (mergeList t [B, A]).2 = [(B, A)] := by
  constructor
  · exact mergeList_pair_collision t A B hpt hk hnone
  · refine mergeList_pair_collision t B A hpt.symm (fun h => hk h.symm) ?_
    rw [hpt]
    exact hnone

/-- Witness for C1: the tame and wild sample records on the Point 5,
inserted into the empty table in both orders. -/
theorem collisionTable_one_collision_either_order_witness :
    (rWild.point = rTame.point ∧ rTame.kind ≠ rWild.kind ∧
      findInShard (CollisionTable.empty (shardFin rTame.point)) rTame.point = none) ∧
    (mergeList CollisionTable.empty [rTame, rWild]).2 = [(rTame, rWild)] ∧
    (mergeList CollisionTable.empty [rWild, rTame]).2 = [(rWild, rTame)] := by
  have h := collisionTable_one_collision_either_order CollisionTable.empty
    rTame rWild rfl (by decide) rfl
  exact ⟨⟨rfl, by decide, rfl⟩, h.1, h.2⟩

/-- Claim C3: inserting a DPRecord for a Point twice with the same kind
leaves the CollisionTable with exactly one entry for that Point (first-seen
kept, second discarded as redundant), and the invariant of at most one entry
per distinct Point is preserved by every insertion. -/
theorem collisionTable_same_kind_discarded (t : CollisionTable) (A B : DPRecord)
    (hwf : t.WF) (hpt : B.point = A.point) (hk : B.kind = A.kind)
    (hnone : findInShard (t (shardFin A.point)) A.point = none) :
    ((((t.insert A).1).insert B).2 = InsertOutcome.redundant A ∧
     (((t.insert A).1).insert B).1 = (t.insert A).1 ∧
     CollisionTable.entriesFor ((((t.insert A).1).insert B).1) A.point = [A]) ∧
    (∀ (u : CollisionTable) (r : DPRecord), u.WF → u.AtMostOnePerPoint →
      ((u.insert r).1).WF ∧ ((u.insert r).1).AtMostOnePerPoint) := by
  have hfreshA := CollisionTable.insert_fresh t A hnone
  have hwf1 : ((t.insert A).1).WF := CollisionTable.insert_wf t A hwf
  have hfindB : findInShard ((t.insert A).1 (shardFin B.point)) B.point = some A := by
    rw [hpt, hfreshA.2.1]
    unfold findInShard at hnone ⊢
    rw [List.find?_append, hnone]
    simp
  have hocc := CollisionTable.insert_occupied (t.insert A).1 B A hfindB
  have hout : (((t.insert A).1).insert B).2 = InsertOutcome.redundant A := by
    rw [hocc.2, if_pos hk.symm]
  refine ⟨⟨hout, hocc.1, ?_⟩, ?_⟩
  · rw [hocc.1, CollisionTable.entriesFor_eq_of_wf _ _ hwf1, hfreshA.2.1,
      List.filter_append]
    have hnil : (t (shardFin A.point)).filter (fun s => s.point == A.point) = [] := by
      refine List.filter_eq_nil_iff.mpr ?_
      intro s hs hps
      exact (List.find?_eq_none.mp hnone s hs) hps
    simp [hnil]
  · intro u r hu h1
    exact ⟨CollisionTable.insert_wf u r hu,
      CollisionTable.insert_at_most_one u r hu h1⟩

/-- Witness for C3: two tame sample records on the Point 5, inserted twice
into the empty table. -/
theorem collisionTable_same_kind_discarded_witness :
    (rTame2.point = rTame.point ∧ rTame2.kind = rTame.kind ∧
      findInShard (CollisionTable.empty (shardFin rTame.point)) rTame.point = none) ∧
    (((CollisionTable.empty.insert rTame).1).insert rTame2).2 =
      InsertOutcome.redundant rTame ∧
    CollisionTable.entriesFor
      (((( CollisionTable.empty.insert rTame).1).insert rTame2).1) rTame.point =
      [rTame] := by
  have h := collisionTable_same_kind_discarded CollisionTable.empty rTame rTame2
    (fun i r hr => absurd hr (List.not_mem_nil r)) rfl rfl rfl
  exact ⟨⟨rfl, rfl, rfl⟩, h.1.1, h.1.2.2⟩

/-- Claim C4: pushing N ≤ capacity records into an empty DPBuffer then
draining returns exactly those N records in insertion order; pushing
capacity+1 records reports exactly one BufferOverflow, rejects the newest
record, and retains the first capacity records. -/
theorem dpBuffer_order_and_single_overflow (rs rs2 : List DPRecord)
    (h1 : rs.length ≤ MAX_DP_BUFFER) (h2 : rs2.length = MAX_DP_BUFFER + 1) :
    ((DPBuffer.empty.pushAll rs).drain.1 = rs ∧
     (DPBuffer.empty.pushAll rs).overflowCount = 0) ∧
    ((DPBuffer.empty.pushAll rs2).items = rs2.take MAX_DP_BUFFER ∧
     (DPBuffer.empty.pushAll rs2).overflowCount = 1) := by
  constructor
  · have h := DPBuffer.pushAll_within_capacity rs DPBuffer.empty
      (by simpa [DPBuffer.empty] using h1)
    constructor
    · simpa [DPBuffer.drain, DPBuffer.empty] using h.1
    · simpa [DPBuffer.empty] using h.2
  · have h := DPBuffer.pushAll_one_past_capacity rs2 DPBuffer.empty
      (by simp [DPBuffer.empty]) (by simpa [DPBuffer.empty] using h2)
    constructor
    · simpa [DPBuffer.empty] using h.1
    · simpa [DPBuffer.empty] using h.2

/-- Witness for C4: one record within capacity, and capacity+1 copies of the
sample record past capacity. -/
theorem dpBuffer_order_and_single_overflow_witness :
    ([rTame].length ≤ MAX_DP_BUFFER ∧
     (List.replicate (MAX_DP_BUFFER + 1) rTame).length = MAX_DP_BUFFER + 1) ∧
    (DPBuffer.empty.pushAll [rTame]).drain.1 = [rTame] ∧
    (DPBuffer.empty.pushAll (List.replicate (MAX_DP_BUFFER + 1) rTame)).overflowCount
      = 1 := by
  have h := dpBuffer_order_and_single_overflow [rTame]
    (List.replicate (MAX_DP_BUFFER + 1) rTame) (by decide) (by simp)
  exact ⟨⟨by decide, by simp⟩, h.1.1, h.2.2⟩

/-- Claim C5: the shard index is a pure function of the Point's canonical
encoding (equal encodings yield equal indices), the table has the fixed
shard count MERGE_PART = 256, the index is within bounds, and an insertion
touches no shard other than the one computed from the inserted Point. -/
theorem shard_routing_pure_and_fixed (p q : Nat) (hpq : p = q) :
    MERGE_PART = 256 ∧ shardIndex p < MERGE_PART ∧ shardIndex p = shardIndex q ∧
    (∀ (t : CollisionTable) (r : DPRecord) (j : Fin MERGE_PART),
      j ≠ shardFin r.point → (t.insert r).1 j = t j) := by
  refine ⟨rfl, Nat.mod_lt _ (by decide), by rw [hpq], ?_⟩
  intro t r j hj
  rcases hfind : findInShard (t (shardFin r.point)) r.point with _ | e
  · exact (CollisionTable.insert_fresh t r hfind).2.2 j hj
  · rw [(CollisionTable.insert_occupied t r e hfind).1]

/-- Witness for C5: the Point with encoding 9. -/
theorem shard_routing_pure_and_fixed_witness :
    (9 : Nat) = 9 ∧ MERGE_PART = 256 ∧ shardIndex 9 < MERGE_PART ∧
    shardIndex 9 = shardIndex 9 := by
  have h := shard_routing_pure_and_fixed 9 9 rfl
  exact ⟨rfl, h.1, h.2.1, h.2.2.1⟩

/-- Claim C6: a non-empty DPBuffer with flush period SEND_PERIOD and no
further pushes after the last push is drained and sent at least once within
SEND_PERIOD seconds of the last push, even if far from full: within
SEND_PERIOD ticks some tick sends the full buffer contents and the buffer
ends empty. -/
theorem dpBuffer_periodic_flush_within_period (s : FlushState)
    (hne : s.buffer.items ≠ []) (hsf : s.sinceFlush < SEND_PERIOD) :
    ∃ i, i < SEND_PERIOD ∧
      ((flushRun s SEND_PERIOD).2).getD i [] = s.buffer.items ∧
      (((flushRun s SEND_PERIOD).1).buffer).items = [] := by
  rcases s with ⟨b, sf⟩
  have h2 : sf = 0 ∨ sf = 1 := by
    simp [SEND_PERIOD] at hsf; omega
  rcases h2 with rfl | rfl
  · refine ⟨1, by decide, ?_, ?_⟩
    · simp [flushRun, flushTick, SEND_PERIOD, DPBuffer.drain]
    · simp [flushRun, flushTick, SEND_PERIOD, DPBuffer.drain]
  · refine ⟨0, by decide, ?_, ?_⟩
    · simp [flushRun, flushTick, SEND_PERIOD, DPBuffer.drain]
    · simp [flushRun, flushTick, SEND_PERIOD, DPBuffer.drain]

/-- Witness for C6: the sample flush state holding one record. -/
theorem dpBuffer_periodic_flush_within_period_witness :
    (sampleFlush.buffer.items ≠ [] ∧ sampleFlush.sinceFlush < SEND_PERIOD) ∧
    ∃ i, i < SEND_PERIOD ∧
      ((flushRun sampleFlush SEND_PERIOD).2).getD i [] = sampleFlush.buffer.items ∧
      (((flushRun sampleFlush SEND_PERIOD).1).buffer).items = [] := by
  have h := dpBuffer_periodic_flush_within_period sampleFlush (by decide) (by decide)
  exact ⟨⟨by decide, by decide⟩, h⟩

/-- Claim C7: every client session idle for more than CLIENT_TIMEOUT is
closed by the server, and closing leaves every already-committed
CollisionTable entry (and the server status) unchanged. -/
theorem idle_session_closed_entries_preserved (st : ServerState)
    (c : ClientSession) (hc : c ∈ st.sessions)
    (hidle : CLIENT_TIMEOUT < c.idleTime) :
    c ∉ (reapIdleSessions st).sessions ∧
    (reapIdleSessions st).table = st.table ∧
    (reapIdleSessions st).status = st.status := by
  refine ⟨?_, rfl, rfl⟩
  intro hmem
  simp [reapIdleSessions, List.mem_filter] at hmem
  omega

/-- Witness for C7: the sample server with one session idle for 4000 s. -/
theorem idle_session_closed_entries_preserved_witness :
    ((⟨1, 4000⟩ : ClientSession) ∈ sampleServer.sessions ∧
      CLIENT_TIMEOUT < (⟨1, 4000⟩ : ClientSession).idleTime) ∧
    (⟨1, 4000⟩ : ClientSession) ∉ (reapIdleSessions sampleServer).sessions ∧
    (reapIdleSessions sampleServer).table = sampleServer.table := by
  have h := idle_session_closed_entries_preserved sampleServer ⟨1, 4000⟩
    (by decide) (by decide)
  exact ⟨⟨by decide, by decide⟩, h.1, h.2.1⟩

/-- Claim C8: once the server is in the Solved state, a received DP batch is
accepted but never merged into the CollisionTable, and once a MergeClient
receives the stop broadcast it never submits a further batch (its walk loop
is terminated). -/
theorem solved_not_merged_stopped_not_submitting (st : ServerState)
    (batch : List DPRecord) (c : MergeClientState) (es : List ClientEvent)
    (hst : st.status = ServerStatus.solved) :
    (serverReceiveBatch st batch).table = st.table ∧
    (clientRun c (ClientEvent.stopBroadcast :: es)).2 = [] := by
  constructor
  · have hrecv : serverReceiveBatch st batch = st := by
      unfold serverReceiveBatch
      rw [hst]
    rw [hrecv]
  · by_cases h : c.stopped
    · have hstep : clientHandle c ClientEvent.stopBroadcast = (c, none) := by
        simp [clientHandle, h]
      have hrun : clientRun c (ClientEvent.stopBroadcast :: es) = clientRun c es := by
        rw [clientRun, hstep]
      rw [hrun]
      exact (clientRun_of_stopped es c h).1
    · have hstep : clientHandle c ClientEvent.stopBroadcast =
          (⟨true, c.buffer⟩, none) := by
        simp [clientHandle, h]
      have hrun : clientRun c (ClientEvent.stopBroadcast :: es) =
          clientRun ⟨true, c.buffer⟩ es := by
        rw [clientRun, hstep]
      rw [hrun]
      exact (clientRun_of_stopped es ⟨true, c.buffer⟩ rfl).1

/-- Witness for C8: the solved sample server fed a batch, and the running
sample client receiving the stop broadcast followed by a flush timer. -/
theorem solved_not_merged_stopped_not_submitting_witness :
    solvedServer.status = ServerStatus.solved ∧
    (serverReceiveBatch solvedServer [rTame]).table = solvedServer.table ∧
    (clientRun sampleClient
      [ClientEvent.stopBroadcast, ClientEvent.flushTimer]).2 = [] := by
  have h := solved_not_merged_stopped_not_submitting solvedServer [rTame]
    sampleClient [ClientEvent.flushTimer] rfl
  exact ⟨rfl, h.1, h.2⟩

/-- Claim C2: for a matching tame/wild pair with consistent distance
bookkeeping, the Solver returns k = (offset_tame + d_t − d_w) mod order and
this k satisfies k·G = P on the synthetic group; when the recovered k fails
the k·G = P verification the Solver returns VerificationFailed and the
server's search resumes (its status stays searching) rather than
terminating. -/
theorem solver_recovers_k_or_reports_false_positive
    (order g p offsetTame dt dw k0 : Nat) (st : ServerState)
    (hord : 0 < order) (hk0 : k0 < order)
    (hdist : (offsetTame + dt) % order = (k0 + dw) % order)
    (hp : p % order = (k0 * g) % order)
    (hst : st.status = ServerStatus.searching) :
    (solve order g p offsetTame dt dw = SolveResult.solved k0 ∧
      (k0 * g) % order = p % order) ∧
    (∀ o2 g2 p2 off2 d2 w2 : Nat, 0 < o2 →
      (recoverK o2 off2 d2 w2 * g2) % o2 ≠ p2 % o2 →
      solve o2 g2 p2 off2 d2 w2 = SolveResult.verificationFailed) ∧
    (applySolve st SolveResult.verificationFailed).status =
      ServerStatus.searching := by
  refine ⟨⟨?_, hp.symm⟩, ?_, ?_⟩
  · unfold solve
    rw [if_neg (by omega), recoverK_eq order offsetTame dt dw k0 hord hk0 hdist,
      if_pos hp.symm]
  · intro o2 g2 p2 off2 d2 w2 ho2 hne
    unfold solve
    rw [if_neg (by omega), if_neg hne]
  · exact hst

/-- Witness for C2: the toy group of order 11, generator 1, target scalar 7
(P = 7), tame offset 3 with distance 9, wild distance 5; the false-positive
branch is exercised with mismatched data. -/
theorem solver_recovers_k_or_reports_false_positive_witness :
    ((0 : Nat) < 11 ∧ (7 : Nat) < 11 ∧ (3 + 9) % 11 = (7 + 5) % 11 ∧
      (7 : Nat) % 11 = (7 * 1) % 11 ∧
      sampleServer.status = ServerStatus.searching) ∧
    solve 11 1 7 3 9 5 = SolveResult.solved 7 ∧
    solve 11 1 5 0 0 0 = SolveResult.verificationFailed ∧
    (applySolve sampleServer SolveResult.verificationFailed).status =
      ServerStatus.searching := by
  have h := solver_recovers_k_or_reports_false_positive 11 1 7 3 9 5 7
    sampleServer (by decide) (by decide) (by decide) (by decide) rfl
  exact ⟨⟨by decide, by decide, by decide, by decide, rfl⟩, h.1.1,
    h.2.1 11 1 5 0 0 0 (by decide) (by decide), h.2.2⟩

/-- Claim C9: the JumpSet is a fixed-size table of exactly NB_JUMP = 32
precomputed jump vectors, and the jump selected for a kangaroo is a
deterministic function of the table and the hash of the kangaroo's current
point. -/
theorem jumpSet_fixed_size_and_deterministic (js : JumpSet) (p q : Nat)
    (h : pointHash p = pointHash q) :
    js.jumps.length = NB_JUMP ∧ NB_JUMP = 32 ∧
    selectJump js p = selectJump js q := by
  refine ⟨js.size_eq, rfl, ?_⟩
  simp only [selectJump]
  rw [h]

/-- Witness for C9: the sample jump table at the point with encoding 5. -/
theorem jumpSet_fixed_size_and_deterministic_witness :
    pointHash 5 = pointHash 5 ∧ sampleJumpSet.jumps.length = NB_JUMP ∧
    selectJump sampleJumpSet 5 = selectJump sampleJumpSet 5 := by
  have h := jumpSet_fixed_size_and_deterministic sampleJumpSet 5 5 rfl
  exact ⟨rfl, h.1, h.2.2⟩

/-- Claim C10: the kind encodings TAME (0) and WILD (1) are distinct, and
for a second insertion on an occupied Point the same-kind (redundant
discard) and different-kind (collision) cases are mutually exclusive and
exhaustive: exactly one of the two outcomes occurs. -/
theorem kind_encodings_distinct_classification_exclusive (t : CollisionTable)
    (r e : DPRecord)
    (hfind : findInShard (t (shardFin r.point)) r.point = some e) :
    TAME ≠ WILD ∧
    Xor' ((t.insert r).2 = InsertOutcome.redundant e)
      ((t.insert r).2 = InsertOutcome.collision e r) := by
  refine ⟨by decide, ?_⟩
  have hocc := CollisionTable.insert_occupied t r e hfind
  by_cases hk : e.kind = r.kind
  · left
    refine ⟨by rw [hocc.2, if_pos hk], ?_⟩
    rw [hocc.2, if_pos hk]
    intro h
    exact InsertOutcome.noConfusion h
  · right
    refine ⟨by rw [hocc.2, if_neg hk], ?_⟩
    rw [hocc.2, if_neg hk]
    intro h
    exact InsertOutcome.noConfusion h

/-- Witness for C10: the wild sample record arriving on the Point already
occupied by the tame sample record. -/
theorem kind_encodings_distinct_classification_exclusive_witness :
    findInShard (tableWithTame (shardFin rWild.point)) rWild.point = some rTame ∧
    (TAME ≠ WILD ∧
      Xor' ((tableWithTame.insert rWild).2 = InsertOutcome.redundant rTame)
        ((tableWithTame.insert rWild).2 = InsertOutcome.collision rTame rWild)) := by
  have h := kind_encodings_distinct_classification_exclusive tableWithTame
    rWild rTame (by decide)
  exact ⟨by decide, h⟩
